import Mathlib

/-!
Verification of the graph representation/conversion engine of the `obi`
repository (src/obi/builders/graph.py, src/obi/builders/composite.py,
src/obi/organizers/convert.py).

Python data is embedded shallowly:
* a Python `dict` is an insertion-ordered association list with unique keys;
  assignment to an existing key replaces the value in place, assignment to a
  new key appends at the end (`dictSet`), exactly as CPython dicts behave;
* a Python `set` of nodes is a duplicate-free list; only membership is ever
  relied upon (Python set iteration order is unspecified, so every claim about
  collections of paths is stated order-independently);
* nodes are `String`s (node names); `convert.namify` is the identity on `str`
  inputs, so it disappears from the node-level operations;
* raising an exception is returning `Except.error`; the `PyErr` payloads carry
  the data the Python message interpolates (the offending node names), so
  "the message names the absent nodes" is stated about the payload.
-/

/-- A Python exception, as observed by callers of the graph engine.
`keyError` carries the node names interpolated into the message,
`keyErrorInt` models a `KeyError` raised by looking an integer key up in a
node-keyed mapping (`adjacency_to_matrix`), `valueError` is the self-loop
`ValueError` of `System.connect`, and `typeError` the `TypeError` raised by
using an unhashable list as a dict key (`linear_to_adjacency`). -/
inductive PyErr where
  | keyError (missing : List String)
  | keyErrorInt (key : Nat)
  | valueError
  | typeError
  deriving Repr, DecidableEq

/-- Python dict lookup `d[k]` on an association list: the value of the first
(and, since keys stay unique, only) entry whose key equals `k`. -/
def dictGet? [BEq κ] : List (κ × α) → κ → Option α
  | [], _ => none
  | kv :: rest, k => if kv.1 == k then some kv.2 else dictGet? rest k

/-- Python membership `k in d`: whether `k` is a key of the dict. -/
def dictContains [BEq κ] (d : List (κ × α)) (k : κ) : Bool :=
  (dictGet? d k).isSome

/-- Python dict assignment `d[k] = v`: replace the value of an existing key in
place, otherwise append the new entry at the end. -/
def dictSet [BEq κ] : List (κ × α) → κ → α → List (κ × α)
  | [], k, v => [(k, v)]
  | kv :: rest, k, v => if kv.1 == k then (k, v) :: rest else kv :: dictSet rest k v

/-- Python `d.update(e)`: assign every entry of `e` into `d`, in order. -/
def dictUpdate [BEq κ] (d e : List (κ × α)) : List (κ × α) :=
  e.foldl (fun acc kv => dictSet acc kv.1 kv.2) d

/-- Python `s.add(x)` on a set modelled as a duplicate-free list. -/
def setAdd [BEq κ] (s : List κ) (x : κ) : List κ :=
  if s.contains x then s else s ++ [x]

/-- An adjacency list: the `contents` of `System` and of `form.Adjacency`,
a mapping from each node to the set of its direct successors. -/
abbrev Adjacency := List (String × List String)

/-- System.endpoint (graph.py 120-123): the keys whose successor set is falsy,
i.e. empty. -/
def System.endpoint (g : Adjacency) : List String :=
  (g.filter (fun kv => kv.2.isEmpty)).map (fun kv => kv.1)

/-- System.root (graph.py 125-129): `stops` chains every successor set
together; the roots are the keys appearing in no successor set. -/
def System.root (g : Adjacency) : List String :=
  let stops := g.flatMap (fun kv => kv.2)
  (g.map (fun kv => kv.1)).filter (fun k => !(stops.contains k))

/-- System.walk (graph.py 419-455) with explicit fuel standing in for Python's
unbounded recursion: the accumulated `path` gains a fresh node at every level
(successors already on `path` are skipped), so any terminating Python run
recurses at most one level per node and the wrapper below supplies enough
fuel. `path = path + [start]`; `start == stop` yields the single completed
path; a `start` that is not a key yields no paths; otherwise every successor
not already on the path is explored and the returned paths are concatenated
in successor order (Python set iteration order is unspecified, so only the
collection of paths is meaningful). -/
def System.walkF : Nat → Adjacency → String → String → List String → List (List String)
  | 0, _, _, _, _ => []
  | fuel + 1, g, start, stop, path =>
    let path := path ++ [start]
    if start == stop then [path]
    else
      match dictGet? g start with
      | none => []
      | some succs =>
          succs.flatMap (fun n =>
            if path.contains n then [] else System.walkF fuel g n stop path)

/-- System.walk entry point: `path` defaults to the empty list; the fuel
`g.length + 2` bounds the recursion depth of any terminating run (at most one
level per key of the graph, plus one non-key successor, plus the start). -/
def System.walk (g : Adjacency) (start stop : String) : List (List String) :=
  System.walkF (g.length + 2) g start stop []

/-- System._find_all_paths (graph.py 459-485) applied as the `paths` property
(graph.py 136-139): walk from every root to every endpoint and collect every
returned path. `walk` always returns a list of lists, never a list of bare
nodes, so the `all(isinstance(path, Node))` branch of the source never fires
and the nonempty results are `extend`ed, which is exactly `List.bind`. -/
def System.paths (g : Adjacency) : List (List String) :=
  (System.root g).flatMap (fun s => (System.endpoint g).flatMap (fun e => System.walk g s e))

/-- System.connect (graph.py 266-287). `start == stop` raises the self-loop
`ValueError` before anything is touched. Otherwise the source runs an
`if start not in self / elif stop not in self` chain — the `elif` means that
when `start` is absent, `stop` is never tested — and then adds
`namify(stop)` (the identity here) to `start`'s successor set if missing.
Membership `x not in self` is mapping.Dictionary.__contains__; that module is
not under src. Modelled from the spec: an Adjacency is "a mapping from node
identity to a set of node identities", so membership is key membership. -/
def System.connect (g : Adjacency) (start stop : String) : Except PyErr Adjacency :=
  if start == stop then .error .valueError
  else
    let g1 :=
      if !(dictContains g start) then dictSet g start []
      else if !(dictContains g stop) then dictSet g stop []
      else g
    let succs := (dictGet? g1 start).getD []
    .ok (if succs.contains stop then g1 else dictSet g1 start (succs ++ [stop]))

/-- System.add (graph.py 191-237) at the call shape the claims use
(`ancestors = None`, so the whole ancestors block of the source is skipped).
With `descendants = None` the node is keyed to a fresh empty set. Otherwise
`iterify` returns the given list unchanged and `namify` is the identity on
string nodes; the absent descendants are collected and, if any, a `KeyError`
naming exactly them is raised before `contents` is touched (atomic failure);
otherwise `contents[node] = set(descendants)`. -/
def System.add (g : Adjacency) (node : String) (descendants : Option (List String)) :
    Except PyErr Adjacency :=
  match descendants with
  | none => .ok (dictSet g node [])
  | some ds =>
      let missing := ds.filter (fun n => !(dictContains g n))
      if missing.isEmpty then .ok (dictSet g node (ds.foldl setAdd []))
      else .error (.keyError missing)

/-- System.delete (graph.py 289-304). `del contents[node]` raises `KeyError`
when absent. Then `contents = {k: v.discard(node) for k, v in contents.items()}`:
Python's `set.discard` returns `None`, so every remaining key is rebound to
`None` rather than to its purged successor set — the result type records the
corrupted values as `Option`. -/
def System.delete (g : Adjacency) (node : String) :
    Except PyErr (List (String × Option (List String))) :=
  if dictContains g node then
    let g1 := g.filter (fun kv => kv.1 != node)
    .ok (g1.map (fun kv => (kv.1, (none : Option (List String)))))
  else .error (.keyError [node])

/-- System.disconnect (graph.py 306-321): `contents[start].discard(stop)`
under a `try/except KeyError`. The behaviour of the lookup depends on the
runtime mapping: the dataclass default (graph.py 114-116) is
`collections.defaultdict(set)`, whose `__getitem__` inserts `start ↦ set()`
instead of raising, after which `discard` is a no-op — no error, and `start`
becomes a key; a plain dict raises `KeyError`, re-raised naming `start`.
`vivify` selects between the two. -/
def System.disconnect (vivify : Bool) (g : Adjacency) (start stop : String) :
    Except PyErr Adjacency :=
  match dictGet? g start with
  | some succs => .ok (dictSet g start (succs.filter (fun y => y != stop)))
  | none =>
      if vivify then .ok (g ++ [(start, [])])
      else .error (.keyError [start])

/-- System.merge (graph.py 323-354), `form.Adjacency` branch: the source
dispatches on the runtime type of `item` and, for an adjacency list, runs
`self.contents.update(adjacency)` — dict update, replacing the successor set
of any key that is already present. -/
def System.merge (g : Adjacency) (item : Adjacency) : Adjacency :=
  dictUpdate g item

/- Dictionary lemmas, in the style of association-list developments. -/

theorem dictGet_set_self [BEq κ] [LawfulBEq κ] (d : List (κ × α)) (k : κ) (v : α) :
    dictGet? (dictSet d k v) k = some v := by
  induction d with
  | nil => simp [dictSet, dictGet?]
  | cons kv rest ih =>
    obtain ⟨k1, v1⟩ := kv
    by_cases hk : k1 = k
    · subst hk
      simp [dictSet, dictGet?]
    · simp [dictSet, dictGet?, beq_iff_eq, hk, ih]

theorem dictGet_set_ne [BEq κ] [LawfulBEq κ] (d : List (κ × α)) (k k' : κ) (v : α)
    (h : ¬ k' = k) : dictGet? (dictSet d k v) k' = dictGet? d k' := by
  induction d with
  | nil => simp [dictSet, dictGet?, beq_iff_eq, Ne.symm h]
  | cons kv rest ih =>
    obtain ⟨k1, v1⟩ := kv
    by_cases hk : k1 = k
    · subst hk
      simp [dictSet, dictGet?, beq_iff_eq, Ne.symm h]
    · simp [dictSet, dictGet?, beq_iff_eq, hk, ih]

theorem dictContains_set [BEq κ] [LawfulBEq κ] (d : List (κ × α)) (k k' : κ) (v : α) :
    dictContains (dictSet d k v) k' = (k' == k || dictContains d k') := by
  by_cases h : k' = k
  · subst h
    simp [dictContains, dictGet_set_self]
  · simp [dictContains, dictGet_set_ne d k k' v h, beq_iff_eq, h]

theorem dictSet_get_eq_self [BEq κ] [LawfulBEq κ] (d : List (κ × α)) (k : κ) (v : α)
    (h : dictGet? d k = some v) : dictSet d k v = d := by
  induction d with
  | nil => simp [dictGet?] at h
  | cons kv rest ih =>
    obtain ⟨k1, v1⟩ := kv
    by_cases hk : k1 = k
    · subst hk
      simp [dictGet?] at h
      simp [dictSet, h]
    · simp [dictGet?, beq_iff_eq, hk] at h
      simp [dictSet, beq_iff_eq, hk, ih h]

theorem mem_foldl_setAdd [BEq κ] [LawfulBEq κ] (ds acc : List κ) (x : κ) :
    (ds.foldl setAdd acc).contains x = (acc.contains x || ds.contains x) := by
  induction ds generalizing acc with
  | nil => simp
  | cons d rest ih =>
    rw [List.foldl_cons, ih]
    unfold setAdd
    by_cases hd : acc.contains d = true
    · have hdm : d ∈ acc := by simpa using hd
      rw [if_pos hd]
      by_cases hx : x = d
      · subst hx
        simp [hdm]
      · simp [hx, or_assoc]
    · rw [if_neg hd]
      by_cases hx : x = d
      · subst hx
        simp
      · simp [hx, or_assoc]

/-- edges_to_adjacency (convert.py 793-811): for each edge pair, either seed
`start`'s successor set with `{stop}` or add `stop` to it, then ensure `stop`
itself is a key, seeded with an empty set when absent. -/
def edges_to_adjacency (item : List (String × String)) : Adjacency :=
  item.foldl
    (fun adjacency ep =>
      let adjacency :=
        if !(dictContains adjacency ep.1) then dictSet adjacency ep.1 [ep.2]
        else dictSet adjacency ep.1 (setAdd ((dictGet? adjacency ep.1).getD []) ep.2)
      if !(dictContains adjacency ep.2) then dictSet adjacency ep.2 [] else adjacency)
    []

/-- matrix_to_adjacency (convert.py 814-837): `name_mapping = dict(zip(range(
len(matrix)), names))`, so looking up a position with no matching label raises
`KeyError`; each row `i` keys `names[i]` to the set of labels of its truthy
columns (`new_values` built by repeated `set.add`). -/
def matrix_to_adjacency (item : List (List Nat) × List String) : Except PyErr Adjacency :=
  let nameAt : Nat → Except PyErr String := fun i =>
    match item.2.get? i with
    | some s => .ok s
    | none => .error (.keyErrorInt i)
  (item.1.enum.foldlM
    (fun adjacency iRow => do
      let newKey ← nameAt iRow.1
      let cols := (iRow.2.enum.filter (fun jv => jv.2 != 0)).map (fun jv => jv.1)
      let vals ← cols.mapM nameAt
      pure (dictSet adjacency newKey (vals.foldl setAdd [])))
    ([] : Adjacency))

/-- adjacency_to_matrix (convert.py 977-993): the labels are the keys, the
matrix starts as rows of zeroes, and the inner loop reads `for j in item[i]` —
it looks the integer loop index `i` up in the node-keyed adjacency mapping,
not the label `names[i]`. A dict keyed by node names holds no integer key, so
the first iteration raises `KeyError` on every nonempty adjacency (with the
`defaultdict` contents of a live `System` the same lookup silently inserts
integer keys and yields ragged all-zero rows instead; the plain-dict
behaviour modelled here is what a bare adjacency literal produces). -/
def adjacency_to_matrix (item : Adjacency) : Except PyErr (List (List Nat) × List String) :=
  let names := item.map (fun kv => kv.1)
  ((List.range item.length).foldlM
    (fun matrix i =>
      let _grown := matrix ++ [List.replicate item.length 0]
      (Except.error (PyErr.keyErrorInt i) : Except PyErr (List (List Nat))))
    ([] : List (List Nat))).map (fun m => (m, names))

/-- windowify (convert.py 374-418) as called by linear_to_adjacency: window
length 2, step 1, fill value `None`. A sequence shorter than the window is
padded with the fill value; otherwise the windows are the consecutive pairs. -/
def windowify2 (item : List String) : List (Option String × Option String) :=
  match item with
  | [] => [(none, none)]
  | [x] => [(some x, none)]
  | _ => (item.zip item.tail).map (fun p => ((some p.1 : Option String), (some p.2 : Option String)))

/-- linear_to_adjacency (convert.py 840-865) on a plain sequence of nodes.
`check.is_linears` (inspectors/check.py, not under src) routes collections of
Linears elsewhere; modelled from the spec, a plain node sequence is not such a
collection, so the else branch runs. A singleton executes
`adjacency.update({item: set()})` whose dict key is the whole sequence: a
Python list is unhashable, so this raises `TypeError` (the intended
`{item[0]: set()}` is never built). Otherwise each window pair adds an edge;
note that nothing ever keys the final node of the sequence, and that the keys
and values are `Option`s because `windowify` pads short input with `None`. -/
def linear_to_adjacency (item : List String) :
    Except PyErr (List (Option String × List (Option String))) :=
  if item.length == 1 then .error .typeError
  else
    .ok ((windowify2 item).foldl
      (fun adjacency ep =>
        if dictContains adjacency ep.1 then
          dictSet adjacency ep.1 (setAdd ((dictGet? adjacency ep.1).getD []) ep.2)
        else dictSet adjacency ep.1 [ep.2])
      [])

/-- A Python value at the node-identity layer: either a bare `str` or a
`composite.Node` (composite.py 191-299) with a `name` and a payload
(`contents`); the payload is opaque to hashing and equality, so it is an
arbitrary `Nat` tag here. -/
inductive PyVal where
  | str (s : String)
  | node (name : String) (payload : Nat)
  deriving Repr, DecidableEq

/-- Python `hash` at this layer: Node.__hash__ (composite.py 261-272) returns
`hash(self.name)`, the hash of the name string; the string hash itself is
modelled by Lean's `String.hash`. -/
def pyHash : PyVal → UInt64
  | .str s => s.hash
  | .node n _ => n.hash

/-- Python `==` between these values. `a == b` calls `a.__eq__(b)` and falls
back to the reflected `b.__eq__(a)` when that returns `NotImplemented`.
Node.__eq__ (composite.py 274-287) compares `str(self.name) == str(other.name)`
and, when `other` has no `name` attribute (`AttributeError`), compares
`str(self.name) == other`. `str.__eq__(node)` is `NotImplemented`, so a
str-node comparison is answered by the reflected Node.__eq__. -/
def pyEq : PyVal → PyVal → Bool
  | .node n _, .node m _ => n == m
  | .node n _, .str s => n == s
  | .str s, .node n _ => n == s
  | .str s, .str t => s == t

/-- Lookup in a Python dict keyed by these values: the first entry whose key
compares `==` to the probe (hashes agree whenever `pyEq` holds, so the
hash-bucket step of a real dict never separates values this finds equal). -/
def pyLookup (d : List (PyVal × Nat)) (k : PyVal) : Option Nat :=
  (d.find? (fun kv => pyEq kv.1 k)).map (fun kv => kv.2)

/-- Membership in a Python set of these values. -/
def pyMem (s : List PyVal) (x : PyVal) : Bool :=
  s.any (fun y => pyEq y x)

/-- The diamond graph of the spec: `{a: {b, c}, b: {d}, c: {d}, d: set()}`. -/
def diamond : Adjacency :=
  [("a", ["b", "c"]), ("b", ["d"]), ("c", ["d"]), ("d", [])]

theorem dictContains_exists [BEq κ] (d : List (κ × α)) (k : κ)
    (h : dictContains d k = true) : ∃ v, dictGet? d k = some v := by
  unfold dictContains at h
  exact Option.isSome_iff_exists.mp h

theorem pyEq_probe_node (n : String) (p : Nat) (x : PyVal) :
    pyEq x (PyVal.node n p) = pyEq x (PyVal.str n) := by
  cases x <;> simp [pyEq, eq_comm]

theorem pyFind_node_str (n : String) (p : Nat) (d : List (PyVal × Nat)) :
    d.find? (fun kv => pyEq kv.1 (PyVal.node n p)) =
      d.find? (fun kv => pyEq kv.1 (PyVal.str n)) := by
  induction d with
  | nil => rfl
  | cons kv rest ih =>
    simp only [List.find?]
    rw [pyEq_probe_node n p kv.1]
    cases pyEq kv.1 (PyVal.str n) <;> simp [ih]

/-- C1: on the adjacency `{a: {b, c}, b: {d}, c: {d}, d: set()}`, the `root`
property is exactly `{a}`, the `endpoint` property is exactly `{d}`, and the
`paths` property holds exactly the two paths `[a, b, d]` and `[a, c, d]`,
compared as a set of paths (either enumeration order realizes it). -/
theorem System_diamond_root_endpoint_paths :
    System.root diamond = ["a"] ∧
    System.endpoint diamond = ["d"] ∧
    (System.paths diamond = [["a", "b", "d"], ["a", "c", "d"]] ∨
     System.paths diamond = [["a", "c", "d"], ["a", "b", "d"]]) :=
  ⟨rfl, rfl, Or.inl rfl⟩

/-- C2: what `System.delete` actually does. Deleting `b` from
`{a: {b}, b: set()}` does remove the key `b` and raise nothing, but the
comprehension `{k: v.discard(node) ...}` rebinds the remaining key `a` to
`None` (the return value of `set.discard`), not to a purged successor set;
deleting from a graph without the node raises `KeyError` naming it. -/
theorem System_delete_discard_corrupts :
    System.delete [("a", ["b"]), ("b", [])] "b" = Except.ok [("a", none)] ∧
    System.delete ([] : Adjacency) "x" = Except.error (PyErr.keyError ["x"]) :=
  ⟨rfl, rfl⟩

/-- C3: merging an adjacency `{a: {x}}` into a graph whose key `a` currently
has successor set `{y}` rebinds `a` to exactly `{x}` — dict-update
replace-at-key semantics, not set union. -/
theorem System_merge_replaces_existing_key (g : Adjacency) (a x y : String)
    (h : dictGet? g a = some [y]) :
    dictGet? (System.merge g [(a, [x])]) a = some [x] := by
  show dictGet? (dictSet g a [x]) a = some [x]
  exact dictGet_set_self g a [x]

/-- Witness for C3 at `g = {a: {y}}`. -/
theorem System_merge_replaces_existing_key_witness :
    dictGet? [("a", ["y"])] "a" = some ["y"] ∧
    dictGet? (System.merge [("a", ["y"])] [("a", ["x"])]) "a" = some ["x"] :=
  ⟨rfl, System_merge_replaces_existing_key [("a", ["y"])] "a" "x" "y" rfl⟩

/-- C4: `connect(x, x)` raises the self-loop `ValueError` for every graph and
node; the raise is the first statement of the method, before any membership
test or insertion, so the error is returned with no new graph state. -/
theorem System_connect_self_loop_raises (g : Adjacency) (x : String) :
    System.connect g x x = Except.error PyErr.valueError := by
  simp [System.connect]

/-- C5 counterexample: connecting `a → b` in the empty graph returns
`{a: {b}}`; `b` is a member of `a`'s successor set but is not a key, because
the source's `elif` chain only adds `stop` when `start` is already present. -/
theorem System_connect_counterexample :
    System.connect ([] : Adjacency) "a" "b" = Except.ok [("a", ["b"])] ∧
    dictContains [(("a" : String), (["b"] : List String))] "b" = false :=
  ⟨rfl, rfl⟩

/-- C5 amended: for distinct nodes, `connect(start, stop)` succeeds, `start`
is a key afterwards (added with an empty set first when absent) and `stop` is
in `start`'s successor set; `stop` is added as a key (with an empty set) only
when `start` was already present — when `start` was absent, `stop` is a key
afterwards only if it already was one before. -/
theorem System_connect_amended (g : Adjacency) (s t : String) (h : s ≠ t) :
    ∃ g', System.connect g s t = Except.ok g' ∧
      dictContains g' s = true ∧
      ((dictGet? g' s).getD []).contains t = true ∧
      (dictContains g s = true → dictContains g t = false → dictGet? g' t = some []) ∧
      (dictContains g s = false → dictContains g' t = dictContains g t) := by
  have hst : (s == t) = false := by simp [h]
  have hts : ¬ t = s := fun e => h e.symm
  by_cases hs : dictContains g s = true
  · by_cases ht : dictContains g t = true
    · obtain ⟨v, hv⟩ := dictContains_exists g s hs
      by_cases hvt : t ∈ v
      · refine ⟨g, ?_, hs, ?_, ?_, ?_⟩
        · simp [System.connect, hst, hs, ht, hv, hvt]
        · simp [hv, hvt]
        · intro _ ht2
          simp [ht] at ht2
        · intro hs2
          simp [hs] at hs2
      · refine ⟨dictSet g s (v ++ [t]), ?_, ?_, ?_, ?_, ?_⟩
        · simp [System.connect, hst, hs, ht, hv, hvt]
        · simp [dictContains_set]
        · rw [dictGet_set_self]
          simp
        · intro _ ht2
          simp [ht] at ht2
        · intro hs2
          simp [hs] at hs2
    · obtain ⟨v, hv⟩ := dictContains_exists g s hs
      have ht' : dictContains g t = false := by simpa using ht
      have hv1 : dictGet? (dictSet g t []) s = some v := by
        rw [dictGet_set_ne g t s [] h]
        exact hv
      by_cases hvt : t ∈ v
      · refine ⟨dictSet g t [], ?_, ?_, ?_, ?_, ?_⟩
        · simp [System.connect, hst, hs, ht', hv1, hvt]
        · rw [dictContains_set]
          simp [hs]
        · simp [hv1, hvt]
        · intro _ _
          exact dictGet_set_self g t []
        · intro hs2
          simp [hs] at hs2
      · refine ⟨dictSet (dictSet g t []) s (v ++ [t]), ?_, ?_, ?_, ?_, ?_⟩
        · simp [System.connect, hst, hs, ht', hv1, hvt]
        · simp [dictContains_set]
        · rw [dictGet_set_self]
          simp
        · intro _ _
          rw [dictGet_set_ne (dictSet g t []) s t (v ++ [t]) hts]
          exact dictGet_set_self g t []
        · intro hs2
          simp [hs] at hs2
  · have hs' : dictContains g s = false := by simpa using hs
    have hget1 : dictGet? (dictSet g s []) s = some ([] : List String) :=
      dictGet_set_self g s []
    refine ⟨dictSet (dictSet g s []) s [t], ?_, ?_, ?_, ?_, ?_⟩
    · simp [System.connect, hst, hs', hget1]
    · simp [dictContains_set]
    · rw [dictGet_set_self]
      simp
    · intro hcon
      simp [hs'] at hcon
    · intro _
      rw [dictContains_set, dictContains_set]
      simp [beq_iff_eq, hts]

/-- Witness for C5 amended at the empty graph and the edge `a → b`. -/
theorem System_connect_amended_witness :
    "a" ≠ "b" ∧
    (∃ g', System.connect ([] : Adjacency) "a" "b" = Except.ok g' ∧
      dictContains g' "a" = true ∧
      ((dictGet? g' "a").getD []).contains "b" = true ∧
      (dictContains ([] : Adjacency) "a" = true →
        dictContains ([] : Adjacency) "b" = false → dictGet? g' "b" = some []) ∧
      (dictContains ([] : Adjacency) "a" = false →
        dictContains g' "b" = dictContains ([] : Adjacency) "b")) :=
  ⟨by decide, System_connect_amended ([] : Adjacency) "a" "b" (by decide)⟩

/-- C6: `add(node, descendants=ds)`. When some descendants are not keys, the
call fails with a `KeyError` whose payload names exactly the absent ones, and
no graph state is produced (the source raises before the assignment to
`contents[node]`, so the graph is untouched). When every descendant is a key,
`node` is bound to `set(ds)` — the same members as `ds`. -/
theorem System_add_descendants_spec (g : Adjacency) (n : String) (ds : List String) :
    ((ds.filter (fun d => !(dictContains g d))).isEmpty = false →
      System.add g n (some ds) =
        Except.error (PyErr.keyError (ds.filter (fun d => !(dictContains g d))))) ∧
    ((ds.filter (fun d => !(dictContains g d))).isEmpty = true →
      ∃ g', System.add g n (some ds) = Except.ok g' ∧
        dictGet? g' n = some (ds.foldl setAdd []) ∧
        ∀ x, (ds.foldl setAdd []).contains x = ds.contains x) := by
  constructor
  · intro h
    simp [System.add, h]
  · intro h
    refine ⟨dictSet g n (ds.foldl setAdd []), ?_, dictGet_set_self g n _, ?_⟩
    · simp [System.add, h]
    · intro x
      rw [mem_foldl_setAdd]
      simp

/-- Witness for C6: in the graph `{a: set()}`, adding with the absent
descendant `b` fails naming `b`; adding with the present descendant `a`
binds the node to `{a}`. -/
theorem System_add_descendants_witness :
    ((["b"].filter (fun d => !(dictContains [("a", ([] : List String))] d))).isEmpty
        = false) ∧
    (System.add [("a", [])] "n" (some ["b"]) =
      Except.error (PyErr.keyError
        (["b"].filter (fun d => !(dictContains [("a", ([] : List String))] d))))) ∧
    ((["a"].filter (fun d => !(dictContains [("a", ([] : List String))] d))).isEmpty
        = true) ∧
    (∃ g', System.add [("a", [])] "n" (some ["a"]) = Except.ok g' ∧
      dictGet? g' "n" = some (["a"].foldl setAdd []) ∧
      ∀ x, (["a"].foldl setAdd []).contains x = ["a"].contains x) :=
  ⟨rfl,
   (System_add_descendants_spec [("a", [])] "n" ["b"]).1 rfl,
   rfl,
   (System_add_descendants_spec [("a", [])] "n" ["a"]).2 rfl⟩

/-- C7 counterexample: on a `System` with its default
`collections.defaultdict(set)` contents, `disconnect` with an absent `start`
raises nothing — the claim demands a `KeyError` whenever `start` is not a
key — and even inserts `start` as a fresh key with an empty successor set. -/
theorem System_disconnect_counterexample :
    System.disconnect true ([] : Adjacency) "a" "b" = Except.ok [("a", [])] ∧
    dictContains ([] : Adjacency) "a" = false :=
  ⟨rfl, rfl⟩

/-- C7 amended: when `start` is a key, `disconnect` removes `stop` from its
successor set (for either kind of contents mapping) and is a silent no-op on
the graph when the edge is absent; when `start` is not a key, the plain-dict
case raises `KeyError` naming `start`, but the default defaultdict contents
instead silently inserts `start` with an empty successor set. -/
theorem System_disconnect_amended (g : Adjacency) (s t : String) :
    (∀ succs, dictGet? g s = some succs →
      (∀ v, System.disconnect v g s t =
        Except.ok (dictSet g s (succs.filter (fun y => y != t)))) ∧
      (succs.contains t = false → ∀ v, System.disconnect v g s t = Except.ok g)) ∧
    (dictGet? g s = none →
      System.disconnect false g s t = Except.error (PyErr.keyError [s]) ∧
      System.disconnect true g s t = Except.ok (g ++ [(s, [])])) := by
  constructor
  · intro succs hsucc
    constructor
    · intro v
      simp [System.disconnect, hsucc]
    · intro hnt v
      have hmem : t ∉ succs := by simpa using hnt
      have hfilter : succs.filter (fun y => y != t) = succs := by
        apply List.filter_eq_self.mpr
        intro a ha
        simp [bne_iff_ne]
        intro he
        exact hmem (he ▸ ha)
      simp [System.disconnect, hsucc, hfilter, dictSet_get_eq_self g s succs hsucc]
  · intro hnone
    exact ⟨by simp [System.disconnect, hnone], by simp [System.disconnect, hnone]⟩

/-- Witness for C7 amended: edge removal on `{a: {b}}` and the two absent-key
behaviours on the empty graph. -/
theorem System_disconnect_amended_witness :
    (dictGet? [("a", ["b"])] "a" = some ["b"] ∧
      (∀ v, System.disconnect v [("a", ["b"])] "a" "b" =
        Except.ok (dictSet [("a", ["b"])] "a" (["b"].filter (fun y => y != "b"))))) ∧
    (dictGet? ([] : Adjacency) "a" = none ∧
      System.disconnect false ([] : Adjacency) "a" "b" =
        Except.error (PyErr.keyError ["a"]) ∧
      System.disconnect true ([] : Adjacency) "a" "b" =
        Except.ok (([] : Adjacency) ++ [("a", [])])) :=
  ⟨⟨rfl, ((System_disconnect_amended [("a", ["b"])] "a" "b").1 ["b"] rfl).1⟩,
   ⟨rfl, (System_disconnect_amended ([] : Adjacency) "a" "b").2 rfl⟩⟩

/-- C8: what the matrix round-trip actually does on the 3-node chain
`{a: {b}, b: {c}, c: set()}`. `adjacency_to_matrix` raises `KeyError` on its
first iteration — `for j in item[i]` looks the integer `0` up in the
node-keyed mapping — instead of producing the 3×3 matrix with ones at (0,1)
and (1,2); the reverse direction `matrix_to_adjacency` does map that intended
matrix back to the chain adjacency. -/
theorem adjacency_matrix_roundtrip_breaks :
    adjacency_to_matrix [("a", ["b"]), ("b", ["c"]), ("c", [])] =
      Except.error (PyErr.keyErrorInt 0) ∧
    matrix_to_adjacency ([[0, 1, 0], [0, 0, 1], [0, 0, 0]], ["a", "b", "c"]) =
      Except.ok [("a", ["b"]), ("b", ["c"]), ("c", [])] :=
  ⟨rfl, rfl⟩

/-- C9: what `linear_to_adjacency` actually does. On the singleton `[a]` it
raises `TypeError` (the dict key of `adjacency.update({item: set()})` is the
whole unhashable list, not the element), instead of returning `{a: set()}`.
On `[a, b, c]` each element is keyed to its immediate successor, but the
final node `c` appears in a successor set without appearing as a key, so the
every-successor-is-a-key invariant fails for this converter —
`edges_to_adjacency`, by contrast, does key the target of its edge. -/
theorem linear_to_adjacency_bugs :
    linear_to_adjacency ["a"] = Except.error PyErr.typeError ∧
    linear_to_adjacency ["a", "b", "c"] =
      Except.ok [(some "a", [some "b"]), (some "b", [some "c"])] ∧
    dictContains
      [((some "a" : Option String), [(some "b" : Option String)]),
       (some "b", [some "c"])] (some "c") = false ∧
    edges_to_adjacency [("a", "b")] = [("a", ["b"]), ("b", [])] :=
  ⟨rfl, rfl, rfl, rfl⟩

/-- C10: a Node hashes as its name string hashes; it compares equal to every
Node with the same name regardless of payload and to the bare string of its
name; `==` against any value cannot tell the Node from its name string in
either argument position, so dict lookup and set membership treat the Node
and the plain string interchangeably. -/
theorem Node_name_string_interchangeable (n : String) (p q : Nat)
    (d : List (PyVal × Nat)) (s : List PyVal) :
    pyHash (PyVal.node n p) = pyHash (PyVal.str n) ∧
    pyEq (PyVal.node n p) (PyVal.node n q) = true ∧
    pyEq (PyVal.node n p) (PyVal.str n) = true ∧
    (∀ x, pyEq (PyVal.node n p) x = pyEq (PyVal.str n) x) ∧
    (∀ x, pyEq x (PyVal.node n p) = pyEq x (PyVal.str n)) ∧
    pyLookup d (PyVal.node n p) = pyLookup d (PyVal.str n) ∧
    pyMem s (PyVal.node n p) = pyMem s (PyVal.str n) := by
  refine ⟨rfl, by simp [pyEq], by simp [pyEq], ?_, pyEq_probe_node n p, ?_, ?_⟩
  · intro x
    cases x <;> simp [pyEq, eq_comm]
  · unfold pyLookup
    rw [pyFind_node_str]
  · unfold pyMem
    induction s with
    | nil => rfl
    | cons y rest ih =>
      simp only [List.any_cons]
      rw [pyEq_probe_node n p y, ih]
